import Mathlib

/- Shallow embedding of src/src/distributed.py (adaserve repository).

   The file models the two functions of that module:
   - node_interpreter (lines 27-131): walks a torch.fx graph node by node,
     resolving arguments from an environment dictionary and executing each
     node, while emitting rank-prefixed log lines.
   - device_fn (lines 134-214): the per-device orchestrator entry point,
     modelled as a trace of the externally visible effects it performs
     (environment-variable writes, process-group operations, tensor and
     module distribution, the timed forward passes, teardown).

   External library calls (chop, torch.distributed, the autosharding pass)
   are modelled by their call sites: each becomes an event in the trace, or
   an oracle parameter where its outcome matters (the result of the timed
   forward passes).  Tensors are modelled abstractly by their shapes and
   placement descriptors; the exact text of log lines is reproduced only up
   to the data they mention, since no claim depends on the formatting. -/

namespace Adaserve

/-- A DTensor placement descriptor: per mesh dimension, either sharded along
a logical tensor dimension or replicated. -/
inductive Placement where
  | shard (dim : Nat)
  | replicate
deriving DecidableEq, Repr

/-- Runtime values flowing through the interpreter: plain python scalars,
local tensors (kept abstract as a shape), DTensors (global shape, local
shard shape, placement spec), tuples or lists of values, and None. -/
inductive Val where
  | int (n : Int)
  | str (s : String)
  | tensor (shape : List Nat)
  | dtensor (shape : List Nat) (localShape : List Nat) (spec : List Placement)
  | tup (vs : List Val)
  | noneV
deriving Repr

/-- An fx node argument: a reference to another node output by name, a
literal, or a nested sequence of arguments (torch.fx map_arg recurses into
tuples and lists). -/
inductive Arg where
  | ref (name : String)
  | lit (v : Val)
  | listA (elems : List Arg)
deriving Repr

/-- Exceptions the python code can raise while interpreting a graph.
unboundReference models the KeyError raised inside load_arg when a node
argument names an environment entry that does not exist (the condition the
spec calls UnboundReference); attributeError models fetch_attr failing on a
missing attribute path; keyError models a missing key in the node metadata
dictionary read by the result-logging block (lines 105-108) and by the
input-sharding loop of device_fn (lines 192-197); unboundLocal models
python raising UnboundLocalError when a local variable is read before any
assignment; opError carries, unwrapped, whatever a node target raised
(line 93 has no try/except, so the exception text is propagated raw,
with no node-name annotation added). -/
inductive PyErr where
  | unboundReference (name : String)
  | attributeError (path : String)
  | keyError (key : String)
  | unboundLocal (var : String)
  | opError (msg : String)
deriving DecidableEq, Repr

/-- The interpreter environment: python dict from node name to value,
in insertion order. -/
abbrev EnvT := List (String × Val)

/-- Dictionary lookup. -/
def envLookup : EnvT → String → Option Val
  | [], _ => none
  | (k, v) :: rest, z => if z = k then some v else envLookup rest z

/-- Dictionary assignment env[k] = v: updates in place if the key exists,
otherwise appends (python dict insertion-order semantics). -/
def dictSet : EnvT → String → Val → EnvT
  | [], k, v => [(k, v)]
  | (k1, v1) :: rest, k, v =>
    if k1 = k then (k, v) :: rest else (k1, v1) :: dictSet rest k v

mutual

/-- load_arg (chop / torch.fx map_arg): replace every node reference by the
value bound in the environment, recursing through nested sequences; a
reference whose name is absent raises (KeyError, the UnboundReference
condition). -/
def loadArg (env : EnvT) : Arg → Except PyErr Val
  | .ref n =>
    match envLookup env n with
    | some v => Except.ok v
    | none => Except.error (PyErr.unboundReference n)
  | .lit v => Except.ok v
  | .listA elems =>
    match loadArgList env elems with
    | Except.ok vs => Except.ok (Val.tup vs)
    | Except.error e => Except.error e

/-- load_arg applied to a sequence of arguments, left to right; the first
failing reference aborts the whole resolution. -/
def loadArgList (env : EnvT) : List Arg → Except PyErr (List Val)
  | [] => Except.ok []
  | a :: rest =>
    match loadArg env a with
    | Except.error e => Except.error e
    | Except.ok v =>
      match loadArgList env rest with
      | Except.error e => Except.error e
      | Except.ok vs => Except.ok (v :: vs)

end

/-- load_arg over the keyword-argument dictionary (name, argument) pairs. -/
def loadKwargs (env : EnvT) : List (String × Arg) → Except PyErr (List (String × Val))
  | [] => Except.ok []
  | (k, a) :: rest =>
    match loadArg env a with
    | Except.error e => Except.error e
    | Except.ok v =>
      match loadKwargs env rest with
      | Except.error e => Except.error e
      | Except.ok vs => Except.ok ((k, v) :: vs)

/-- A model is a tree of named submodules with tensor-bearing leaves,
enough structure for fetch_attr dotted-path resolution. -/
inductive PModel where
  | leaf (v : Val)
  | mod (attrs : List (String × PModel))

/-- Attribute lookup on one level of a model. -/
def lookupAttr : List (String × PModel) → String → Option PModel
  | [], _ => none
  | (k, m) :: rest, z => if z = k then some m else lookupAttr rest z

/-- Walk a dotted attribute path through the module tree. -/
def fetchAttrGo : PModel → List String → Option Val
  | PModel.leaf v, [] => some v
  | PModel.mod attrs, s :: rest =>
    match lookupAttr attrs s with
    | some m => fetchAttrGo m rest
    | none => none
  | _, _ => none

/-- fetch_attr (chop / torch.fx): resolve a dotted attribute path on the
model, raising if any component is missing. -/
def fetch_attr (m : PModel) (target : String) : Except PyErr Val :=
  match fetchAttrGo m (target.splitOn (".")) with
  | some v => Except.ok v
  | none => Except.error (PyErr.attributeError target)

/-- rlog emits one rank-prefixed log line; the module logger is set to
INFO (line 24), so debug lines appear only at a higher verbosity.  Level 0
stands for info, level 1 for debug; verb is the configured verbosity. -/
def emit (verb lvl rank : Nat) (msg : String) : List String :=
  if lvl ≤ verb then [("rank ") ++ toString rank ++ (": ") ++ msg] else []

/-- Rendering of a placement descriptor for log lines. -/
def placementStr : Placement → String
  | Placement.shard d => ("Shard(") ++ toString d ++ (")")
  | Placement.replicate => ("Replicate()")

/-- Rendering of a placement spec for log lines. -/
def placementsStr (ps : List Placement) : String :=
  ("[") ++ String.intercalate (", ") (ps.map placementStr) ++ ("]")

/-- Python type name of a value, for the log lines that print type(x). -/
def vType : Val → String
  | Val.int _ => ("int")
  | Val.str _ => ("str")
  | Val.tensor _ => ("Tensor")
  | Val.dtensor _ _ _ => ("DTensor")
  | Val.tup _ => ("tuple")
  | Val.noneV => ("NoneType")

/-- Shape text of a value for log lines (only tensors carry a shape; the
python code only ever formats the shape of tensor inputs). -/
def vShapeStr : Val → String
  | Val.tensor sh => toString sh
  | Val.dtensor sh _ _ => toString sh
  | _ => ("-")

/-- Short rendering of a non-tensor value for log lines. -/
def vStr : Val → String
  | Val.int n => toString n
  | Val.str s => s
  | Val.tensor sh => ("tensor") ++ toString sh
  | Val.dtensor sh _ _ => ("dtensor") ++ toString sh
  | Val.tup vs => ("tuple(len=") ++ toString vs.length ++ (")")
  | Val.noneV => ("None")

/-- The debug line printed for one positional argument (lines 70-91):
DTensor arguments print global and local shape and spec, plain tensors
print their shape, anything else is printed directly. -/
def argTrace1 (verb rank idx : Nat) (v : Val) : List String :=
  match v with
  | Val.dtensor sh ls spec =>
    emit verb 1 rank (("Arg ") ++ toString idx ++ (" (DTensor) shape: ") ++ toString sh
      ++ (", local_tensor.shape: ") ++ toString ls ++ (", spec: ") ++ placementsStr spec)
  | Val.tensor sh =>
    emit verb 1 rank (("Arg ") ++ toString idx ++ (" (Tensor) shape: ") ++ toString sh)
  | v => emit verb 1 rank (("Arg ") ++ toString idx ++ (": ") ++ vStr v)

/-- The argument-logging loop over enumerate(args). -/
def argTraces (verb rank : Nat) : Nat → List Val → List String
  | _, [] => []
  | i, v :: vs => argTrace1 verb rank i v ++ argTraces verb rank (i + 1) vs

/-- rlist (line 95): a tuple or list result is enumerated element-wise,
any other result is treated as a one-element sequence. -/
def rlistOf : Val → List Val
  | Val.tup vs => vs
  | v => [v]

/-- Lookup in the per-node results metadata dictionary
(meta mase common results, keyed data_out_i). -/
def metaLookup : List (String × List Placement) → String → Option (List Placement)
  | [], _ => none
  | (k, s) :: rest, z => if z = k then some s else metaLookup rest z

/-- The logging block for one result element (lines 96-128).  For a DTensor
result it prints shapes and spec; if the node carries results metadata it
additionally indexes results[data_out_i] (line 106), which raises KeyError
when that key is absent - this indexing happens unconditionally, before
any verbosity filtering, because the f-string is evaluated eagerly. -/
def resultTrace1 (verb rank : Nat) (rm : Option (List (String × List Placement)))
    (ridx : Nat) (r : Val) : Except PyErr (List String) :=
  match r with
  | Val.dtensor sh ls spec =>
    let t := emit verb 1 rank (("Result ") ++ toString ridx ++ (" (DTensor) shape: ")
      ++ toString sh ++ (", local_shape: ") ++ toString ls ++ (", spec: ") ++ placementsStr spec)
    match rm with
    | none => Except.ok t
    | some entries =>
      match metaLookup entries (("data_out_") ++ toString ridx) with
      | none => Except.error (PyErr.keyError (("data_out_") ++ toString ridx))
      | some expected =>
        Except.ok (t ++ emit verb 1 rank (("expected spec: ") ++ placementsStr expected))
  | Val.tensor sh =>
    Except.ok (emit verb 1 rank (("Result ") ++ toString ridx ++ (" (Tensor) shape: ") ++ toString sh))
  | r => Except.ok (emit verb 1 rank (("Result ") ++ toString ridx ++ (": ") ++ vStr r))

/-- The result-logging loop over enumerate(rlist). -/
def resultTraces (verb rank : Nat) (rm : Option (List (String × List Placement))) :
    Nat → List Val → Except PyErr (List String)
  | _, [] => Except.ok []
  | i, r :: rs =>
    match resultTrace1 verb rank rm i r with
    | Except.error e => Except.error e
    | Except.ok t =>
      match resultTraces verb rank rm (i + 1) rs with
      | Except.error e => Except.error e
      | Except.ok ts => Except.ok (t ++ ts)

/-- A python callable installed as a call_function target: positional and
keyword arguments in, a value out, or an exception (message). -/
abbrev OpFun := List Val → List (String × Val) → Except String Val

/-- One fx graph node as node_interpreter consumes it: name, op kind
string, target (attribute path for get_attr, callable for call_function),
argument list, keyword arguments, and the optional mase results metadata
(placement spec per output slot). -/
structure Node where
  name : String
  op : String
  target : String
  fn : OpFun
  args : List Arg
  kwargs : List (String × Arg)
  results_meta : Option (List (String × List Placement))

/-- The interpreter state: the environment dictionary, the current value of
the python local variable result (none when not yet assigned - reading it
then raises UnboundLocalError), and the log lines emitted so far. -/
structure IState where
  env : EnvT
  res : Option Val
  trace : List String

/-- One iteration of the node loop of node_interpreter (lines 38-131).
The branch structure mirrors the source: placeholder binds the input value;
get_attr resolves the dotted target on the model; call_function resolves
arguments against the environment, invokes the target and logs the results;
every other op kind falls through to line 131, which reads the stale local
variable result and binds it under the node name (raising UnboundLocalError
when no earlier node ever assigned it). -/
def interpStep (rank : Nat) (model : PModel) (inputs : Val) (verb : Nat)
    (st : IState) (node : Node) : Except PyErr IState :=
  if node.op = ("placeholder") then
    let t := emit verb 1 rank (("Placeholder ") ++ node.name ++ (" has type ")
      ++ vType inputs ++ (", shape ") ++ vShapeStr inputs)
    Except.ok ⟨dictSet st.env node.name inputs, some inputs, st.trace ++ t⟩
  else if node.op = ("get_attr") then
    match fetch_attr model node.target with
    | Except.error e => Except.error e
    | Except.ok result =>
      let t1 := emit verb 1 rank (("get_attr node ") ++ node.name ++ (" has type ")
        ++ vType inputs ++ (", shape ") ++ vShapeStr inputs)
      let t2 :=
        match result with
        | Val.dtensor _ ls spec =>
          emit verb 1 rank (("Local shape: ") ++ toString ls ++ (", sharding: ") ++ placementsStr spec)
        | _ => []
      Except.ok ⟨dictSet st.env node.name result, some result, st.trace ++ t1 ++ t2⟩
  else if node.op = ("call_function") then
    match loadArgList st.env node.args with
    | Except.error e => Except.error e
    | Except.ok args =>
      match loadKwargs st.env node.kwargs with
      | Except.error e => Except.error e
      | Except.ok kwargs =>
        let t0 := emit verb 0 rank (("Running function ") ++ node.name)
        let t1 := argTraces verb rank 0 args
        match node.fn args kwargs with
        | Except.error e => Except.error (PyErr.opError e)
        | Except.ok result =>
          match resultTraces verb rank node.results_meta 0 (rlistOf result) with
          | Except.error e => Except.error e
          | Except.ok t2 =>
            Except.ok ⟨dictSet st.env node.name result, some result, st.trace ++ t0 ++ t1 ++ t2⟩
  else
    match st.res with
    | none => Except.error (PyErr.unboundLocal ("result"))
    | some r => Except.ok ⟨dictSet st.env node.name r, some r, st.trace⟩

/-- The node loop from a given state. -/
def runFrom (rank : Nat) (model : PModel) (inputs : Val) (verb : Nat)
    (st : IState) : List Node → Except PyErr IState
  | [] => Except.ok st
  | n :: rest =>
    match interpStep rank model inputs verb st n with
    | Except.error e => Except.error e
    | Except.ok st2 => runFrom rank model inputs verb st2 rest

/-- node_interpreter up to its final state: env starts empty (line 37) and
the nodes are processed in declaration order. -/
def node_interpreter_run (rank : Nat) (model : PModel) (inputs : Val) (verb : Nat)
    (nodes : List Node) : Except PyErr IState :=
  runFrom rank model inputs verb ⟨[], none, []⟩ nodes

/-- The python function node_interpreter itself: it has no return statement,
so on success it returns None; the environment it populated is a local
variable and is discarded when the function returns. -/
def node_interpreter (rank : Nat) (model : PModel) (inputs : Val) (verb : Nat)
    (nodes : List Node) : Except PyErr Unit :=
  match node_interpreter_run rank model inputs verb nodes with
  | Except.ok _ => Except.ok ()
  | Except.error e => Except.error e

/-- Model configuration as device_fn reads it: only hidden_size is
consumed (line 157). -/
structure ModelConfig where
  hidden_size : Nat
deriving DecidableEq, Repr

/-- The command-line run configuration.  device_fn reads batch_size and
sequence_length (line 157).  The spec (section 6) additionally declares a
warm-up repeat count and a timed repeat count as part of the run
configuration; those two fields are carried here, following the spec,
precisely so that one can state whether the code reads them - the source
never does. -/
structure CliArgs where
  batch_size : Nat
  sequence_length : Nat
  warmup_config : Nat
  repeat_config : Nat
deriving DecidableEq, Repr

/-- The externally visible effects of device_fn, in program order:
environment-variable writes (lines 146-148), process-group creation
(line 151), device binding (lines 152-153), synthesis of the random input
(lines 156-158), the autosharding pass (lines 159-164), device-mesh
construction and the timed module distribution (lines 167-182), the
rank-0 code print (lines 185-186), the construction of the input DTensor
from a placement spec (lines 199-203), the timed forward passes with their
repeat and warm-up counts (lines 205-210), and process-group destruction
(line 214). -/
inductive Ev where
  | setEnvVar (key val : String)
  | initProcessGroup (backend : String) (rank world : Nat)
  | setCudaDevice (rank : Nat)
  | synthInput (shape : List Nat)
  | autoshardingRun
  | createMesh (mesh : List Nat)
  | distributeModuleTimed
  | printModelCode
  | distributeTensorEv (mesh : List Nat) (spec : List Placement)
  | timedForward (rpt warmup : Nat)
  | destroyProcessGroup
deriving DecidableEq, Repr

/-- Orchestrator failures: an error raised inside the input-sharding
lookup loop, or an exception escaping the timed forward passes. -/
inductive DevErr where
  | shardingLookup (e : PyErr)
  | execRaise (msg : String)
deriving DecidableEq, Repr

/-- The loop of lines 192-197: every placeholder node overwrites the local
variable input_sharding with the placement spec recorded on its
data_out_0 results metadata; indexing a placeholder without that metadata
raises KeyError. -/
def shardingFold (acc : Option (List Placement)) : List Node → Except PyErr (Option (List Placement))
  | [] => Except.ok acc
  | n :: rest =>
    if n.op = ("placeholder") then
      match n.results_meta with
      | none => Except.error (PyErr.keyError ("results"))
      | some entries =>
        match metaLookup entries ("data_out_0") with
        | none => Except.error (PyErr.keyError ("data_out_0"))
        | some spec => shardingFold (some spec) rest
    else shardingFold acc rest

/-- The input placement actually used (lines 192-199): the last placeholder
wins; a graph without any placeholder leaves input_sharding unassigned, so
line 199 raises UnboundLocalError. -/
def get_input_sharding (nodes : List Node) : Except PyErr (List Placement) :=
  match shardingFold none nodes with
  | Except.error e => Except.error e
  | Except.ok (some spec) => Except.ok spec
  | Except.ok none => Except.error (PyErr.unboundLocal ("input_sharding"))

/-- device_fn (lines 134-214) as a trace of effects plus an optional
escaping error.  The graph produced by the autosharding pass and the
outcome of the timed forward passes are oracle parameters, since both come
from external components.  The function body is a straight line: there is
no try/finally, so an error raised after group creation leaves the trace
as executed so far and propagates - in particular destroy_process_group
(line 214, the last statement) runs only when nothing before it raised. -/
def device_fn (rank world : Nat) (device_mesh : List Nat) (model_config : ModelConfig)
    (cli_args : CliArgs) (mgNodes : List Node) (execResult : Except String Unit) :
    List Ev × Option DevErr :=
  let evs0 : List Ev :=
    [Ev.setEnvVar ("MASTER_ADDR") ("localhost"),
     Ev.setEnvVar ("MASTER_PORT") ("12355"),
     Ev.setEnvVar ("RANK") (toString rank),
     Ev.initProcessGroup ("nccl") rank world,
     Ev.setCudaDevice rank,
     Ev.synthInput [cli_args.batch_size, cli_args.sequence_length, model_config.hidden_size],
     Ev.autoshardingRun,
     Ev.createMesh device_mesh,
     Ev.distributeModuleTimed]
    ++ (if rank = 0 then [Ev.printModelCode] else [])
  match get_input_sharding mgNodes with
  | Except.error e => (evs0, some (DevErr.shardingLookup e))
  | Except.ok spec =>
    let evs1 := evs0 ++ [Ev.distributeTensorEv device_mesh spec]
    match execResult with
    | Except.error msg => (evs1 ++ [Ev.timedForward 4 2], some (DevErr.execRaise msg))
    | Except.ok _ => (evs1 ++ [Ev.timedForward 4 2] ++ [Ev.destroyProcessGroup], none)

/-- Number of process-group destructions in a trace. -/
def countDestroy : List Ev → Nat
  | [] => 0
  | Ev.destroyProcessGroup :: rest => countDestroy rest + 1
  | _ :: rest => countDestroy rest

/- Helper lemmas. -/

/-- Lookup after a dictionary assignment: the assigned key reads back the
new value, every other key is unchanged. -/
theorem envLookup_dictSet (env : EnvT) (k : String) (v : Val) (z : String) :
    envLookup (dictSet env k v) z = if z = k then some v else envLookup env z := by
  induction env with
  | nil => simp [dictSet, envLookup]
  | cons hd tl ih =>
    obtain ⟨k1, v1⟩ := hd
    by_cases h1 : k1 = k
    · subst h1
      by_cases h2 : z = k1 <;> simp [dictSet, envLookup, h2]
    · by_cases h2 : z = k1
      · subst h2
        simp [dictSet, envLookup, h1, Ne.symm h1]
      · simp [dictSet, envLookup, h1, h2, ih]

/-- Every successful step binds exactly the name of the processed node,
to the value that becomes the new content of the local variable result. -/
theorem interpStep_ok_shape (rank : Nat) (model : PModel) (inputs : Val) (verb : Nat)
    (st : IState) (node : Node) (st2 : IState)
    (h : interpStep rank model inputs verb st node = Except.ok st2) :
    ∃ w, st2.env = dictSet st.env node.name w ∧ st2.res = some w := by
  unfold interpStep at h
  split at h
  · exact ⟨inputs, by cases h; exact ⟨rfl, rfl⟩⟩
  · split at h
    · split at h
      · cases h
      · rename_i result heq
        exact ⟨result, by cases h; exact ⟨rfl, rfl⟩⟩
    · split at h
      · split at h
        · cases h
        · split at h
          · cases h
          · split at h
            · cases h
            · rename_i result heq
              split at h
              · cases h
              · exact ⟨result, by cases h; exact ⟨rfl, rfl⟩⟩
      · split at h
        · cases h
        · rename_i r heq
          exact ⟨r, by cases h; exact ⟨rfl, rfl⟩⟩

/-- The node loop over an appended list runs the first part and continues
from its final state. -/
theorem runFrom_append (rank : Nat) (model : PModel) (inputs : Val) (verb : Nat)
    (st : IState) (l1 l2 : List Node) :
    runFrom rank model inputs verb st (l1 ++ l2) =
      match runFrom rank model inputs verb st l1 with
      | Except.error e => Except.error e
      | Except.ok st2 => runFrom rank model inputs verb st2 l2 := by
  induction l1 generalizing st with
  | nil => simp [runFrom]
  | cons n rest ih =>
    simp only [List.cons_append, runFrom]
    cases interpStep rank model inputs verb st n with
    | error e => rfl
    | ok st2 => exact ih st2

/-- After a successful run, a name is absent from the environment exactly
when it was absent initially and no processed node bears it. -/
theorem runFrom_ok_lookup (rank : Nat) (model : PModel) (inputs : Val) (verb : Nat)
    (st : IState) (nodes : List Node) (st2 : IState)
    (h : runFrom rank model inputs verb st nodes = Except.ok st2) (z : String) :
    envLookup st2.env z = none ↔
      (envLookup st.env z = none ∧ ∀ n ∈ nodes, n.name ≠ z) := by
  induction nodes generalizing st with
  | nil =>
    simp only [runFrom] at h
    cases h
    simp
  | cons n rest ih =>
    simp only [runFrom] at h
    cases hstep : interpStep rank model inputs verb st n with
    | error e => rw [hstep] at h; cases h
    | ok stMid =>
      rw [hstep] at h
      obtain ⟨w, hw, _⟩ := interpStep_ok_shape rank model inputs verb st n stMid hstep
      have := ih stMid h
      rw [this, hw, envLookup_dictSet]
      constructor
      · rintro ⟨h1, h2⟩
        by_cases hz : z = n.name
        · simp [hz] at h1
        · simp [hz] at h1
          exact ⟨h1, by
            intro m hm
            rcases List.mem_cons.mp hm with hm | hm
            · subst hm; exact fun he => hz he.symm
            · exact h2 m hm⟩
      · rintro ⟨h1, h2⟩
        have hz : n.name ≠ z := h2 n (List.mem_cons_self n rest)
        refine ⟨?_, fun m hm => h2 m (List.mem_cons_of_mem n hm)⟩
        rw [if_neg (fun he => hz he.symm)]
        exact h1

/-- A successful run over nodes none of which bears the name z leaves the
binding of z unchanged. -/
theorem runFrom_preserves_lookup (rank : Nat) (model : PModel) (inputs : Val) (verb : Nat)
    (st : IState) (nodes : List Node) (st2 : IState) (z : String)
    (h : runFrom rank model inputs verb st nodes = Except.ok st2)
    (hz : ∀ n ∈ nodes, n.name ≠ z) :
    envLookup st2.env z = envLookup st.env z := by
  induction nodes generalizing st with
  | nil =>
    simp only [runFrom] at h
    cases h
    rfl
  | cons n rest ih =>
    simp only [runFrom] at h
    cases hstep : interpStep rank model inputs verb st n with
    | error e => rw [hstep] at h; cases h
    | ok stMid =>
      rw [hstep] at h
      obtain ⟨w, hw, _⟩ := interpStep_ok_shape rank model inputs verb st n stMid hstep
      have hrec := ih stMid h (fun m hm => hz m (List.mem_cons_of_mem n hm))
      rw [hrec, hw, envLookup_dictSet,
        if_neg (fun he => hz n (List.mem_cons_self n rest) he.symm)]

/-- A successful run with at least one node leaves the local variable
result assigned. -/
theorem runFrom_ok_res_isSome (rank : Nat) (model : PModel) (inputs : Val) (verb : Nat)
    (st : IState) (n : Node) (rest : List Node) (st2 : IState)
    (h : runFrom rank model inputs verb st (n :: rest) = Except.ok st2) :
    st2.res.isSome := by
  induction rest generalizing st n with
  | nil =>
    simp only [runFrom] at h
    cases hstep : interpStep rank model inputs verb st n with
    | error e => rw [hstep] at h; cases h
    | ok stMid =>
      rw [hstep] at h
      simp only [runFrom] at h
      obtain ⟨w, _, hw⟩ := interpStep_ok_shape rank model inputs verb st n stMid hstep
      cases h
      simp [hw]
  | cons m rest2 ih =>
    simp only [runFrom] at h
    cases hstep : interpStep rank model inputs verb st n with
    | error e => rw [hstep] at h; cases h
    | ok stMid =>
      rw [hstep] at h
      exact ih stMid m h

mutual

/-- All node names referenced by an argument, including inside nested
sequences. -/
def argRefNames1 : Arg → List String
  | Arg.ref n => [n]
  | Arg.lit _ => []
  | Arg.listA elems => argRefNamesL elems

/-- All node names referenced by an argument list. -/
def argRefNamesL : List Arg → List String
  | [] => []
  | a :: rest => argRefNames1 a ++ argRefNamesL rest

end

/-- All node names referenced by the keyword-argument dictionary; the
source resolves node.kwargs through load_arg exactly like node.args
(line 67). -/
def kwargRefNames : List (String × Arg) → List String
  | [] => []
  | (_, a) :: rest => argRefNames1 a ++ kwargRefNames rest

mutual

/-- Argument resolution fails only by an unbound reference, and the
reported name is a referenced name absent from the environment. -/
theorem loadArg_error_unbound (env : EnvT) (a : Arg) (e : PyErr)
    (h : loadArg env a = Except.error e) :
    ∃ y, e = PyErr.unboundReference y ∧ y ∈ argRefNames1 a ∧ envLookup env y = none := by
  match a with
  | Arg.ref n =>
    simp only [loadArg] at h
    cases hl : envLookup env n with
    | some v => rw [hl] at h; cases h
    | none =>
      rw [hl] at h
      cases h
      exact ⟨n, rfl, by simp [argRefNames1], hl⟩
  | Arg.lit v => simp only [loadArg] at h; cases h
  | Arg.listA elems =>
    simp only [loadArg] at h
    cases hl : loadArgList env elems with
    | ok vs => rw [hl] at h; cases h
    | error e2 =>
      rw [hl] at h
      cases h
      obtain ⟨y, hy1, hy2, hy3⟩ := loadArgList_error_unbound env elems e hl
      exact ⟨y, hy1, by simpa [argRefNames1] using hy2, hy3⟩

/-- Resolution of an argument list fails only by an unbound reference. -/
theorem loadArgList_error_unbound (env : EnvT) (as : List Arg) (e : PyErr)
    (h : loadArgList env as = Except.error e) :
    ∃ y, e = PyErr.unboundReference y ∧ y ∈ argRefNamesL as ∧ envLookup env y = none := by
  match as with
  | [] => simp only [loadArgList] at h; cases h
  | a :: rest =>
    simp only [loadArgList] at h
    cases ha : loadArg env a with
    | error e2 =>
      rw [ha] at h
      cases h
      obtain ⟨y, hy1, hy2, hy3⟩ := loadArg_error_unbound env a e ha
      exact ⟨y, hy1, by simp [argRefNamesL, hy2], hy3⟩
    | ok v =>
      rw [ha] at h
      cases hr : loadArgList env rest with
      | error e2 =>
        rw [hr] at h
        cases h
        obtain ⟨y, hy1, hy2, hy3⟩ := loadArgList_error_unbound env rest e hr
        exact ⟨y, hy1, by simp [argRefNamesL, hy2], hy3⟩
      | ok vs => rw [hr] at h; cases h

end

mutual

/-- If an argument references a name absent from the environment, its
resolution fails with an unbound reference to some absent referenced
name (the first one encountered). -/
theorem loadArg_unbound_error (env : EnvT) (a : Arg) (x : String)
    (hx : x ∈ argRefNames1 a) (hu : envLookup env x = none) :
    ∃ y, y ∈ argRefNames1 a ∧ envLookup env y = none ∧
      loadArg env a = Except.error (PyErr.unboundReference y) := by
  match a with
  | Arg.ref n =>
    simp only [argRefNames1, List.mem_singleton] at hx
    have hn : envLookup env n = none := by rw [← hx]; exact hu
    exact ⟨n, by simp [argRefNames1], hn, by simp [loadArg, hn]⟩
  | Arg.lit v => simp [argRefNames1] at hx
  | Arg.listA elems =>
    simp only [argRefNames1] at hx
    obtain ⟨y, hy1, hy2, hy3⟩ := loadArgList_unbound_error env elems x hx hu
    exact ⟨y, by simpa [argRefNames1] using hy1, hy2, by simp [loadArg, hy3]⟩

/-- If an argument list references a name absent from the environment, its
resolution fails with an unbound reference. -/
theorem loadArgList_unbound_error (env : EnvT) (as : List Arg) (x : String)
    (hx : x ∈ argRefNamesL as) (hu : envLookup env x = none) :
    ∃ y, y ∈ argRefNamesL as ∧ envLookup env y = none ∧
      loadArgList env as = Except.error (PyErr.unboundReference y) := by
  match as with
  | [] => simp [argRefNamesL] at hx
  | a :: rest =>
    cases ha : loadArg env a with
    | error e2 =>
      obtain ⟨y, hy1, hy2, hy3⟩ := loadArg_error_unbound env a e2 ha
      subst hy1
      exact ⟨y, by simp [argRefNamesL, hy2], hy3, by simp [loadArgList, ha]⟩
    | ok v =>
      have hxr : x ∈ argRefNamesL rest := by
        simp only [argRefNamesL, List.mem_append] at hx
        rcases hx with hx | hx
        · obtain ⟨y, _, hy2, hy3⟩ := loadArg_unbound_error env a x hx hu
          rw [ha] at hy3
          cases hy3
        · exact hx
      obtain ⟨y, hy1, hy2, hy3⟩ := loadArgList_unbound_error env rest x hxr hu
      exact ⟨y, by simp [argRefNamesL, hy1], hy2, by simp [loadArgList, ha, hy3]⟩

end

/-- Keyword-argument resolution fails only by an unbound reference, and
the reported name is a referenced name absent from the environment. -/
theorem loadKwargs_error_unbound (env : EnvT) (ks : List (String × Arg)) (e : PyErr)
    (h : loadKwargs env ks = Except.error e) :
    ∃ y, e = PyErr.unboundReference y ∧ y ∈ kwargRefNames ks ∧ envLookup env y = none := by
  induction ks with
  | nil => simp only [loadKwargs] at h; cases h
  | cons ka rest ih =>
    obtain ⟨k, a⟩ := ka
    simp only [loadKwargs] at h
    cases ha : loadArg env a with
    | error e2 =>
      rw [ha] at h
      cases h
      obtain ⟨y, hy1, hy2, hy3⟩ := loadArg_error_unbound env a e ha
      exact ⟨y, hy1, by simp [kwargRefNames, hy2], hy3⟩
    | ok v =>
      rw [ha] at h
      cases hr : loadKwargs env rest with
      | error e2 =>
        rw [hr] at h
        cases h
        obtain ⟨y, hy1, hy2, hy3⟩ := ih hr
        exact ⟨y, hy1, by simp [kwargRefNames, hy2], hy3⟩
      | ok vs => rw [hr] at h; cases h

/-- If the keyword arguments reference a name absent from the
environment, their resolution fails with an unbound reference. -/
theorem loadKwargs_unbound_error (env : EnvT) (ks : List (String × Arg)) (x : String)
    (hx : x ∈ kwargRefNames ks) (hu : envLookup env x = none) :
    ∃ y, y ∈ kwargRefNames ks ∧ envLookup env y = none ∧
      loadKwargs env ks = Except.error (PyErr.unboundReference y) := by
  induction ks with
  | nil => simp [kwargRefNames] at hx
  | cons ka rest ih =>
    obtain ⟨k, a⟩ := ka
    cases ha : loadArg env a with
    | error e2 =>
      obtain ⟨y, hy1, hy2, hy3⟩ := loadArg_error_unbound env a e2 ha
      subst hy1
      exact ⟨y, by simp [kwargRefNames, hy2], hy3, by simp [loadKwargs, ha]⟩
    | ok v =>
      have hxr : x ∈ kwargRefNames rest := by
        simp only [kwargRefNames, List.mem_append] at hx
        rcases hx with hx | hx
        · obtain ⟨y, _, hy2, hy3⟩ := loadArg_unbound_error env a x hx hu
          rw [ha] at hy3
          cases hy3
        · exact hx
      obtain ⟨y, hy1, hy2, hy3⟩ := ih hxr
      exact ⟨y, by simp [kwargRefNames, hy1], hy2, by simp [loadKwargs, ha, hy3]⟩

/-- The trace-free observation of an interpreter state: the environment
and the local variable result. -/
def obsOf (st : IState) : EnvT × Option Val := (st.env, st.res)

/-- The trace-free observation of an interpreter outcome. -/
def obsE : Except PyErr IState → Except PyErr (EnvT × Option Val)
  | Except.ok st => Except.ok (obsOf st)
  | Except.error e => Except.error e

/-- The error component of a logging-block outcome. -/
def errOf : Except PyErr (List String) → Option PyErr
  | Except.ok _ => none
  | Except.error e => some e

/-- Whether the result-logging block for one element raises, and with
which error, does not depend on the verbosity: the metadata indexing it
performs happens before any verbosity filtering. -/
theorem resultTrace1_errOf (v1 v2 rank : Nat) (rm : Option (List (String × List Placement)))
    (i : Nat) (r : Val) :
    errOf (resultTrace1 v1 rank rm i r) = errOf (resultTrace1 v2 rank rm i r) := by
  cases r with
  | dtensor sh ls spec =>
    cases rm with
    | none => simp [resultTrace1, errOf]
    | some entries =>
      cases h : metaLookup entries (("data_out_") ++ toString i) <;>
        simp [resultTrace1, errOf, h]
  | int n => simp [resultTrace1, errOf]
  | str s => simp [resultTrace1, errOf]
  | tensor sh => simp [resultTrace1, errOf]
  | tup vs => simp [resultTrace1, errOf]
  | noneV => simp [resultTrace1, errOf]

/-- Whether the result-logging loop raises, and with which error, does not
depend on the verbosity. -/
theorem resultTraces_errOf (v1 v2 rank : Nat) (rm : Option (List (String × List Placement)))
    (i : Nat) (rs : List Val) :
    errOf (resultTraces v1 rank rm i rs) = errOf (resultTraces v2 rank rm i rs) := by
  induction rs generalizing i with
  | nil => simp [resultTraces, errOf]
  | cons r rest ih =>
    have h1 := resultTrace1_errOf v1 v2 rank rm i r
    cases ha : resultTrace1 v1 rank rm i r with
    | error ea =>
      cases hb : resultTrace1 v2 rank rm i r with
      | error eb =>
        rw [ha, hb] at h1
        simp only [errOf, Option.some.injEq] at h1
        subst h1
        simp [resultTraces, ha, hb, errOf]
      | ok tb => rw [ha, hb] at h1; simp [errOf] at h1
    | ok ta =>
      cases hb : resultTrace1 v2 rank rm i r with
      | error eb => rw [ha, hb] at h1; simp [errOf] at h1
      | ok tb =>
        have h2 := ih (i + 1)
        cases hra : resultTraces v1 rank rm (i + 1) rest with
        | error ea2 =>
          cases hrb : resultTraces v2 rank rm (i + 1) rest with
          | error eb2 =>
            rw [hra, hrb] at h2
            simp only [errOf, Option.some.injEq] at h2
            subst h2
            simp [resultTraces, ha, hb, hra, hrb, errOf]
          | ok tb2 => rw [hra, hrb] at h2; simp [errOf] at h2
        | ok ta2 =>
          cases hrb : resultTraces v2 rank rm (i + 1) rest with
          | error eb2 => rw [hra, hrb] at h2; simp [errOf] at h2
          | ok tb2 => simp [resultTraces, ha, hb, hra, hrb, errOf]

/-- One interpreter step started from two states with equal environment
and result components produces, at any two verbosities, outcomes with
equal trace-free observations: verbosity influences only the log lines. -/
theorem interpStep_obs (rank : Nat) (model : PModel) (inputs : Val) (v1 v2 : Nat)
    (st1 st2 : IState) (node : Node)
    (he : st1.env = st2.env) (hr : st1.res = st2.res) :
    obsE (interpStep rank model inputs v1 st1 node) =
      obsE (interpStep rank model inputs v2 st2 node) := by
  obtain ⟨e1, r1, t1⟩ := st1
  obtain ⟨e2, r2, t2⟩ := st2
  have he2 : e1 = e2 := he
  have hr2 : r1 = r2 := hr
  subst he2
  subst hr2
  unfold interpStep
  by_cases h1 : node.op = ("placeholder")
  · simp [h1, obsE, obsOf]
  by_cases h2 : node.op = ("get_attr")
  · simp only [if_neg h1, if_pos h2]
    cases fetch_attr model node.target with
    | error e => simp [obsE]
    | ok result => simp [obsE, obsOf]
  by_cases h3 : node.op = ("call_function")
  · simp only [if_neg h1, if_neg h2, if_pos h3]
    cases hargs : loadArgList e1 node.args with
    | error e => simp [obsE, hargs]
    | ok args =>
      cases hkw : loadKwargs e1 node.kwargs with
      | error e => simp [obsE, hargs, hkw]
      | ok kwargs =>
        cases hf : node.fn args kwargs with
        | error e => simp [obsE, hargs, hkw, hf]
        | ok result =>
          have hrt := resultTraces_errOf v1 v2 rank node.results_meta 0 (rlistOf result)
          cases hra : resultTraces v1 rank node.results_meta 0 (rlistOf result) with
          | error ea =>
            cases hrb : resultTraces v2 rank node.results_meta 0 (rlistOf result) with
            | error eb =>
              rw [hra, hrb] at hrt
              simp only [errOf, Option.some.injEq] at hrt
              subst hrt
              simp [obsE, hargs, hkw, hf, hra, hrb]
            | ok tb => rw [hra, hrb] at hrt; simp [errOf] at hrt
          | ok ta =>
            cases hrb : resultTraces v2 rank node.results_meta 0 (rlistOf result) with
            | error eb => rw [hra, hrb] at hrt; simp [errOf] at hrt
            | ok tb => simp [obsE, obsOf, hargs, hkw, hf, hra, hrb]
  · simp only [if_neg h1, if_neg h2, if_neg h3]
    cases r1 with
    | none => simp [obsE]
    | some r => simp [obsE, obsOf]

/-- The node loop preserves equality of trace-free observations across
verbosities. -/
theorem runFrom_obs (rank : Nat) (model : PModel) (inputs : Val) (v1 v2 : Nat)
    (st1 st2 : IState) (nodes : List Node)
    (he : st1.env = st2.env) (hr : st1.res = st2.res) :
    obsE (runFrom rank model inputs v1 st1 nodes) =
      obsE (runFrom rank model inputs v2 st2 nodes) := by
  induction nodes generalizing st1 st2 with
  | nil => simp [runFrom, obsE, obsOf, he, hr]
  | cons n rest ih =>
    have hs := interpStep_obs rank model inputs v1 v2 st1 st2 n he hr
    cases ha : interpStep rank model inputs v1 st1 n with
    | error ea =>
      cases hb : interpStep rank model inputs v2 st2 n with
      | error eb =>
        rw [ha, hb] at hs
        simp only [obsE, Except.error.injEq] at hs
        subst hs
        simp [runFrom, ha, hb, obsE]
      | ok stb => rw [ha, hb] at hs; simp [obsE] at hs
    | ok sta =>
      cases hb : interpStep rank model inputs v2 st2 n with
      | error eb => rw [ha, hb] at hs; simp [obsE] at hs
      | ok stb =>
        rw [ha, hb] at hs
        simp only [obsE, Except.ok.injEq, obsOf, Prod.mk.injEq] at hs
        simp only [runFrom, ha, hb]
        exact ih sta stb hs.1 hs.2

/-- countDestroy distributes over list append. -/
theorem countDestroy_append (l1 l2 : List Ev) :
    countDestroy (l1 ++ l2) = countDestroy l1 + countDestroy l2 := by
  induction l1 with
  | nil => simp [countDestroy]
  | cons e rest ih =>
    cases e
    all_goals simp [countDestroy, ih]
    all_goals omega

/-- A list of nodes without placeholders leaves the input_sharding local
variable untouched. -/
theorem shardingFold_skip (acc : Option (List Placement)) (l : List Node)
    (h : ∀ q ∈ l, q.op ≠ ("placeholder")) : shardingFold acc l = Except.ok acc := by
  induction l with
  | nil => rfl
  | cons n rest ih =>
    have hn := h n (List.mem_cons_self n rest)
    simp only [shardingFold, if_neg hn]
    exact ih (fun q hq => h q (List.mem_cons_of_mem n hq))

/-- The input-sharding loop over an appended node list. -/
theorem shardingFold_append (acc : Option (List Placement)) (l1 l2 : List Node) :
    shardingFold acc (l1 ++ l2) =
      match shardingFold acc l1 with
      | Except.error e => Except.error e
      | Except.ok acc2 => shardingFold acc2 l2 := by
  induction l1 generalizing acc with
  | nil => simp [shardingFold]
  | cons n rest ih =>
    simp only [List.cons_append, shardingFold]
    by_cases hn : n.op = ("placeholder")
    · rw [if_pos hn, if_pos hn]
      cases n.results_meta with
      | none => rfl
      | some entries =>
        dsimp only
        cases metaLookup entries ("data_out_0") with
        | none => rfl
        | some spec => exact ih (some spec)
    · rw [if_neg hn, if_neg hn]
      exact ih acc

/- Concrete graphs, models and configurations used to evaluate the
definitions at specific inputs. -/

/-- A trivial model with no attributes. -/
def m0 : PModel := PModel.mod []

/-- A concrete input tensor. -/
def inp0 : Val := Val.tensor [2, 3]

/-- Identity operation on one positional argument. -/
def idOp : OpFun := fun args _ =>
  match args with
  | [v] => Except.ok v
  | _ => Except.error ("arity")

/-- An operation whose contract declares two outputs: it returns a pair. -/
def pairOp : OpFun := fun _ _ => Except.ok (Val.tup [Val.int 1, Val.int 2])

/-- An operation that raises. -/
def boomOp : OpFun := fun _ _ => Except.error ("boom")

/-- Another operation that raises, with a different message. -/
def bangOp : OpFun := fun _ _ => Except.error ("bang")

/-- A placeholder node named x. -/
def xNode : Node :=
  { name := ("x"), op := ("placeholder"), target := (""), fn := idOp,
    args := [], kwargs := [], results_meta := none }

/-- A call node applying the identity to x. -/
def cIdNode : Node :=
  { name := ("c"), op := ("call_function"), target := (""), fn := idOp,
    args := [Arg.ref ("x")], kwargs := [], results_meta := none }

/-- A call node whose operation returns two outputs. -/
def cPairNode : Node :=
  { name := ("c"), op := ("call_function"), target := (""), fn := pairOp,
    args := [Arg.ref ("x")], kwargs := [], results_meta := none }

/-- A call node whose operation raises. -/
def cBoomNode : Node :=
  { name := ("c"), op := ("call_function"), target := (""), fn := boomOp,
    args := [], kwargs := [], results_meta := none }

/-- A second raising call node. -/
def dBangNode : Node :=
  { name := ("d"), op := ("call_function"), target := (""), fn := bangOp,
    args := [], kwargs := [], results_meta := none }

/-- A call node referencing a name no node produces. -/
def badRefNode : Node :=
  { name := ("c"), op := ("call_function"), target := (""), fn := idOp,
    args := [Arg.ref ("zzz")], kwargs := [], results_meta := none }

/-- A call node whose only unbound reference sits in its keyword
arguments. -/
def kwRefNode : Node :=
  { name := ("c"), op := ("call_function"), target := (""), fn := idOp,
    args := [], kwargs := [(("k"), Arg.ref ("www"))], results_meta := none }

/-- A node of an op kind outside the three recognized ones (fx graphs end
with such an output node). -/
def outNode : Node :=
  { name := ("out"), op := ("output"), target := (""), fn := idOp,
    args := [], kwargs := [], results_meta := none }

/-- A placeholder node carrying a recorded placement spec on its
data_out_0 results metadata, as the autosharding pass produces. -/
def pShardNode : Node :=
  { name := ("input_1"), op := ("placeholder"), target := (""), fn := idOp,
    args := [], kwargs := [], results_meta := some [(("data_out_0"), [Placement.shard 0])] }

/-- A concrete model configuration. -/
def mc0 : ModelConfig := { hidden_size := 512 }

/-- A concrete run configuration. -/
def cfg0 : CliArgs :=
  { batch_size := 2, sequence_length := 128, warmup_config := 2, repeat_config := 4 }

/-- A run configuration asking for 9 warm-up and 7 timed repeats. -/
def cfgA : CliArgs :=
  { batch_size := 2, sequence_length := 128, warmup_config := 9, repeat_config := 7 }

/- Claim theorems. -/

/-- C10: for every rank and every combination of arguments, device_fn
unconditionally writes MASTER_ADDR=localhost and MASTER_PORT=12355 (and
RANK) into the process environment before joining the process group with
the nccl backend; the rendezvous address is a pair of constants, not a
parameter of the entry point, as the universal quantification over every
argument shows. -/
theorem c10_hardcoded_rendezvous (rank world : Nat) (mesh : List Nat) (mc : ModelConfig)
    (cfg : CliArgs) (nodes : List Node) (er : Except String Unit) :
    (device_fn rank world mesh mc cfg nodes er).fst.take 4 =
      [Ev.setEnvVar ("MASTER_ADDR") ("localhost"),
       Ev.setEnvVar ("MASTER_PORT") ("12355"),
       Ev.setEnvVar ("RANK") (toString rank),
       Ev.initProcessGroup ("nccl") rank world] := by
  unfold device_fn
  cases get_input_sharding nodes with
  | error e => rfl
  | ok spec =>
    cases er with
    | error msg => rfl
    | ok u => rfl

/-- C1 counterexample: a concrete run in which the timed forward passes
(the Executing step) raise.  The error propagates, and the trace contains
zero process-group destructions - not the exactly-one release the claim
requires on every exit path: device_fn has no try/finally, and
destroy_process_group is only reached on the fully successful path. -/
theorem c1_counterexample :
    (device_fn 0 4 [4] mc0 cfg0 [pShardNode] (Except.error ("boom"))).snd =
      some (DevErr.execRaise ("boom")) ∧
    countDestroy (device_fn 0 4 [4] mc0 cfg0 [pShardNode] (Except.error ("boom"))).fst = 0 :=
  ⟨rfl, rfl⟩

/-- C1 amended: on the fully successful path the process group is
destroyed exactly once, as the final operation, with no group operation
after it; but if the Executing step raises, the error propagates with the
process group never released (zero destructions), because line 214 is
simply the last statement of a straight-line function. -/
theorem c1_teardown_behavior (rank world : Nat) (mesh : List Nat) (mc : ModelConfig)
    (cfg : CliArgs) (nodes : List Node) (spec : List Placement)
    (h : get_input_sharding nodes = Except.ok spec) :
    ((device_fn rank world mesh mc cfg nodes (Except.ok ())).snd = none ∧
      countDestroy (device_fn rank world mesh mc cfg nodes (Except.ok ())).fst = 1 ∧
      (device_fn rank world mesh mc cfg nodes (Except.ok ())).fst.getLast? =
        some Ev.destroyProcessGroup) ∧
    ∀ msg,
      (device_fn rank world mesh mc cfg nodes (Except.error msg)).snd =
        some (DevErr.execRaise msg) ∧
      countDestroy (device_fn rank world mesh mc cfg nodes (Except.error msg)).fst = 0 := by
  unfold device_fn
  rw [h]
  refine ⟨⟨rfl, ?_, ?_⟩, fun msg => ⟨rfl, ?_⟩⟩
  · by_cases hr : rank = 0 <;>
      simp [hr, countDestroy_append, countDestroy]
  · by_cases hr : rank = 0
    · rw [if_pos hr]
      rfl
    · rw [if_neg hr]
      rfl
  · by_cases hr : rank = 0 <;>
      simp [hr, countDestroy_append, countDestroy]

/-- C1 witness: the amended theorem evaluated on a concrete graph and
configuration, on both the successful and the raising path. -/
theorem c1_witness :
    countDestroy (device_fn 1 4 [4] mc0 cfg0 [pShardNode] (Except.ok ())).fst = 1 ∧
    countDestroy (device_fn 1 4 [4] mc0 cfg0 [pShardNode] (Except.error ("oops"))).fst = 0 :=
  ⟨(c1_teardown_behavior 1 4 [4] mc0 cfg0 [pShardNode] [Placement.shard 0] rfl).1.2.1,
   ((c1_teardown_behavior 1 4 [4] mc0 cfg0 [pShardNode] [Placement.shard 0] rfl).2 ("oops")).2⟩

/-- C6 counterexample: a run configuration requesting 7 timed repeats and
9 warm-up iterations is ignored - the timed forward passes are invoked
with the literal constants repeat=4, warmup_iters=2 (lines 208-209), so
the repeat counts are not configurable through the run configuration. -/
theorem c6_counterexample :
    Ev.timedForward 4 2 ∈ (device_fn 0 4 [4] mc0 cfgA [pShardNode] (Except.ok ())).fst ∧
    Ev.timedForward 7 9 ∉ (device_fn 0 4 [4] mc0 cfgA [pShardNode] (Except.ok ())).fst := by
  constructor
  · decide
  · decide

/-- C6 amended: the Executing step invokes the library helper
distributed_average_timing (which performs the warm-up and the timed
repeats and the cross-rank aggregation internally) on the distributed
model, but with the hard-coded counts repeat=4 and warmup_iters=2: every
timed-forward invocation in the trace carries exactly those constants,
for every run configuration. -/
theorem c6_fixed_repeat_counts (rank world : Nat) (mesh : List Nat) (mc : ModelConfig)
    (cfg : CliArgs) (nodes : List Node) (er : Except String Unit) (spec : List Placement)
    (h : get_input_sharding nodes = Except.ok spec) :
    Ev.timedForward 4 2 ∈ (device_fn rank world mesh mc cfg nodes er).fst ∧
    ∀ r w, Ev.timedForward r w ∈ (device_fn rank world mesh mc cfg nodes er).fst →
      r = 4 ∧ w = 2 := by
  unfold device_fn
  rw [h]
  cases er with
  | error msg =>
    constructor
    · simp
    · intro r w hmem
      by_cases hr : rank = 0 <;> simp [hr] at hmem <;> exact hmem
  | ok u =>
    constructor
    · simp
    · intro r w hmem
      by_cases hr : rank = 0 <;> simp [hr] at hmem <;> exact hmem

/-- C6 witness: the amended theorem evaluated on a concrete graph and
configuration. -/
theorem c6_witness :
    Ev.timedForward 4 2 ∈ (device_fn 0 4 [4] mc0 cfg0 [pShardNode] (Except.ok ())).fst :=
  (c6_fixed_repeat_counts 0 4 [4] mc0 cfg0 [pShardNode] (Except.ok ()) [Placement.shard 0]
    rfl).1

/-- C7: when the graph contains exactly one placeholder node, the
placement spec device_fn uses to shard the input tensor is exactly the one
recorded on the data_out_0 slot of that placeholder results metadata (lines
192-197), and the input DTensor is constructed from that spec together
with the device mesh (lines 199-203). -/
theorem c7_input_spec_from_placeholder (rank world : Nat) (mesh : List Nat)
    (mc : ModelConfig) (cfg : CliArgs) (pre post : List Node) (p : Node)
    (entries : List (String × List Placement)) (spec : List Placement)
    (hpre : ∀ q ∈ pre, q.op ≠ ("placeholder"))
    (hpost : ∀ q ∈ post, q.op ≠ ("placeholder"))
    (hop : p.op = ("placeholder"))
    (hm1 : p.results_meta = some entries)
    (hm2 : metaLookup entries ("data_out_0") = some spec) :
    get_input_sharding (pre ++ p :: post) = Except.ok spec ∧
    Ev.distributeTensorEv mesh spec ∈
      (device_fn rank world mesh mc cfg (pre ++ p :: post) (Except.ok ())).fst := by
  have hfold : shardingFold none (pre ++ p :: post) = Except.ok (some spec) := by
    rw [shardingFold_append, shardingFold_skip none pre hpre]
    simp only [shardingFold, if_pos hop, hm1]
    rw [hm2]
    exact shardingFold_skip (some spec) post hpost
  have hs : get_input_sharding (pre ++ p :: post) = Except.ok spec := by
    unfold get_input_sharding
    rw [hfold]
  refine ⟨hs, ?_⟩
  unfold device_fn
  rw [hs]
  simp

/-- C7 witness: the theorem evaluated on a concrete one-placeholder
graph. -/
theorem c7_witness :
    get_input_sharding [pShardNode] = Except.ok [Placement.shard 0] ∧
    Ev.distributeTensorEv [4] [Placement.shard 0] ∈
      (device_fn 0 4 [4] mc0 cfg0 [pShardNode] (Except.ok ())).fst := by
  have h := c7_input_spec_from_placeholder 0 4 [4] mc0 cfg0 [] [] pShardNode
    [(("data_out_0"), [Placement.shard 0])] [Placement.shard 0]
    (by intro q hq; cases hq) (by intro q hq; cases hq) rfl rfl rfl
  exact h

/-- C2: if a call_function node is reached (all earlier nodes executed
successfully) and any of its references - positional or keyword, both
resolved through load_arg at lines 66-67 - names a node no earlier node
produced, interpretation fails at that node with an unbound-reference
error (the KeyError from the environment lookup inside load_arg) naming
some such absent reference; it never proceeds past the node. -/
theorem c2_unbound_reference (rank : Nat) (model : PModel) (inputs : Val) (verb : Nat)
    (pre : List Node) (c : Node) (post : List Node) (st : IState) (x : String)
    (hpre : node_interpreter_run rank model inputs verb pre = Except.ok st)
    (hop : c.op = ("call_function"))
    (hx : x ∈ argRefNamesL c.args ++ kwargRefNames c.kwargs)
    (hnew : ∀ p ∈ pre, p.name ≠ x) :
    ∃ y, y ∈ argRefNamesL c.args ++ kwargRefNames c.kwargs ∧ (∀ p ∈ pre, p.name ≠ y) ∧
      node_interpreter_run rank model inputs verb (pre ++ c :: post) =
        Except.error (PyErr.unboundReference y) := by
  have hlook := runFrom_ok_lookup rank model inputs verb ⟨[], none, []⟩ pre st hpre
  have hxnone : envLookup st.env x = none := (hlook x).mpr ⟨rfl, hnew⟩
  have h1 : ¬(("call_function") = ("placeholder")) := by decide
  have h2 : ¬(("call_function") = ("get_attr")) := by decide
  have hmain : ∃ y, y ∈ argRefNamesL c.args ++ kwargRefNames c.kwargs ∧
      envLookup st.env y = none ∧
      interpStep rank model inputs verb st c =
        Except.error (PyErr.unboundReference y) := by
    cases ha : loadArgList st.env c.args with
    | error e =>
      obtain ⟨y, hy1, hy2, hy3⟩ := loadArgList_error_unbound st.env c.args e ha
      subst hy1
      refine ⟨y, List.mem_append.mpr (Or.inl hy2), hy3, ?_⟩
      unfold interpStep
      rw [hop, if_neg h1, if_neg h2, if_pos rfl]
      simp only [ha]
    | ok args =>
      cases hk : loadKwargs st.env c.kwargs with
      | error e =>
        obtain ⟨y, hy1, hy2, hy3⟩ := loadKwargs_error_unbound st.env c.kwargs e hk
        subst hy1
        refine ⟨y, List.mem_append.mpr (Or.inr hy2), hy3, ?_⟩
        unfold interpStep
        rw [hop, if_neg h1, if_neg h2, if_pos rfl]
        simp only [ha, hk]
      | ok kwargs =>
        exfalso
        rcases List.mem_append.mp hx with hxa | hxk
        · obtain ⟨y, _, _, hy3⟩ := loadArgList_unbound_error st.env c.args x hxa hxnone
          rw [ha] at hy3
          cases hy3
        · obtain ⟨y, _, _, hy3⟩ := loadKwargs_unbound_error st.env c.kwargs x hxk hxnone
          rw [hk] at hy3
          cases hy3
  obtain ⟨y, hy1, hy2, hstep⟩ := hmain
  refine ⟨y, hy1, ((hlook y).mp hy2).2, ?_⟩
  unfold node_interpreter_run at hpre ⊢
  rw [runFrom_append, hpre]
  simp only [runFrom, hstep]

/-- C2 witness: a call node referencing the absent name zzz positionally,
and a call node referencing the absent name www only through its keyword
arguments; both runs fail with the corresponding unbound reference. -/
theorem c2_witness :
    node_interpreter_run 0 m0 inp0 0 ([xNode] ++ badRefNode :: []) =
      Except.error (PyErr.unboundReference ("zzz")) ∧
    node_interpreter_run 0 m0 inp0 0 ([xNode] ++ kwRefNode :: []) =
      Except.error (PyErr.unboundReference ("www")) := by
  constructor
  · obtain ⟨y, hy1, hy2, hy3⟩ :=
      c2_unbound_reference 0 m0 inp0 0 [xNode] badRefNode []
        ⟨[(("x"), inp0)], some inp0, []⟩ ("zzz") rfl rfl
        (by simp [badRefNode, argRefNamesL, argRefNames1, kwargRefNames])
        (by intro p hp; simp only [List.mem_singleton] at hp; subst hp; decide)
    have hyz : y = ("zzz") := by
      simpa [badRefNode, argRefNamesL, argRefNames1, kwargRefNames] using hy1
    rw [← hyz]
    exact hy3
  · obtain ⟨y, hy1, hy2, hy3⟩ :=
      c2_unbound_reference 0 m0 inp0 0 [xNode] kwRefNode []
        ⟨[(("x"), inp0)], some inp0, []⟩ ("www") rfl rfl
        (by simp [kwRefNode, argRefNamesL, argRefNames1, kwargRefNames])
        (by intro p hp; simp only [List.mem_singleton] at hp; subst hp; decide)
    have hyz : y = ("www") := by
      simpa [kwRefNode, argRefNamesL, argRefNames1, kwargRefNames] using hy1
    rw [← hyz]
    exact hy3

/-- C3 counterexample: node_interpreter returns None (unit), not the
Environment; on this concrete graph the run succeeds, the internal
environment holds a binding for every node, and the function nonetheless
returns a value carrying no mapping, because the python function has no
return statement and env is a discarded local (line 37). -/
theorem c3_counterexample :
    node_interpreter 0 m0 inp0 0 [xNode, cIdNode] = Except.ok () ∧
    node_interpreter_run 0 m0 inp0 0 [xNode, cIdNode] =
      Except.ok ⟨[(("x"), inp0), (("c"), inp0)], some inp0,
        [("rank 0: Running function c")]⟩ :=
  ⟨rfl, rfl⟩

/-- C3 amended: when interpretation completes without error on a graph
with pairwise distinct node names (an input constraint: the data model
declares node names unique), the internal Environment contains, for every
node of the graph, the name of that node bound to the value that node
produced when it was executed (the value its step assigned to the local
result and bound at line 131) - but the function returns None, discarding
this Environment rather than returning it. -/
theorem c3_env_population (rank : Nat) (model : PModel) (inputs : Val) (verb : Nat)
    (nodes : List Node) (st : IState)
    (h : node_interpreter_run rank model inputs verb nodes = Except.ok st)
    (hnodup : (nodes.map Node.name).Nodup) :
    node_interpreter rank model inputs verb nodes = Except.ok () ∧
    ∀ pre n post, nodes = pre ++ n :: post →
      ∃ st1 st2 w,
        node_interpreter_run rank model inputs verb pre = Except.ok st1 ∧
        interpStep rank model inputs verb st1 n = Except.ok st2 ∧
        st2.res = some w ∧ st2.env = dictSet st1.env n.name w ∧
        envLookup st.env n.name = some w := by
  constructor
  · unfold node_interpreter
    rw [h]
  · intro pre n post hsplit
    subst hsplit
    unfold node_interpreter_run at h ⊢
    rw [runFrom_append] at h
    cases hpre : runFrom rank model inputs verb ⟨[], none, []⟩ pre with
    | error e => rw [hpre] at h; cases h
    | ok st1 =>
      rw [hpre] at h
      simp only [runFrom] at h
      cases hstep : interpStep rank model inputs verb st1 n with
      | error e => rw [hstep] at h; cases h
      | ok st2 =>
        rw [hstep] at h
        obtain ⟨w, hw1, hw2⟩ := interpStep_ok_shape rank model inputs verb st1 n st2 hstep
        have hpost : ∀ m ∈ post, m.name ≠ n.name := by
          rw [List.map_append, List.map_cons] at hnodup
          have hmem := (List.nodup_cons.mp hnodup.of_append_right).1
          intro m hm he
          exact hmem (he ▸ List.mem_map_of_mem Node.name hm)
        have hpres := runFrom_preserves_lookup rank model inputs verb st2 post st
          n.name h hpost
        refine ⟨st1, st2, w, rfl, hstep, hw2, hw1, ?_⟩
        rw [hpres, hw1, envLookup_dictSet, if_pos rfl]

/-- C3 witness: the amended theorem evaluated on a concrete graph: the
entry point returns unit while the internal environment binds the name of
the call node to the value that node produced. -/
theorem c3_witness :
    node_interpreter 0 m0 inp0 0 [xNode, cIdNode] = Except.ok () ∧
    envLookup [(("x"), inp0), (("c"), inp0)] (("c")) = some inp0 := by
  have h := c3_env_population 0 m0 inp0 0 [xNode, cIdNode]
    ⟨[(("x"), inp0), (("c"), inp0)], some inp0, [("rank 0: Running function c")]⟩
    rfl (by decide)
  obtain ⟨st1, st2, w, h1, h2, h3, h4, h5⟩ := h.2 [xNode] cIdNode [] rfl
  have hlit : envLookup [(("x"), inp0), (("c"), inp0)] (("c")) = some inp0 := by
    simp [envLookup]
  exact ⟨h.1, hlit⟩

/-- C4 counterexample: a call node whose operation returns two outputs as
a pair.  The final environment binds the whole pair under the node name c
and contains no other binding - in particular no per-output sub-name
binding - refuting the claim that each output is bound under its
designated sub-name (line 131 always executes env[node.name] = result,
tuple or not). -/
theorem c4_counterexample :
    node_interpreter_run 0 m0 inp0 0 [xNode, cPairNode] =
      Except.ok ⟨[(("x"), inp0), (("c"), Val.tup [Val.int 1, Val.int 2])],
        some (Val.tup [Val.int 1, Val.int 2]), [("rank 0: Running function c")]⟩ :=
  rfl

/-- C4 amended: a successful call_function step always binds the whole
result - single value or tuple of multiple outputs alike - directly under
the name of the node; outputs are never unpacked into sub-names. -/
theorem c4_bind_whole_result (rank : Nat) (model : PModel) (inputs : Val) (verb : Nat)
    (st : IState) (c : Node) (args : List Val) (kwargs : List (String × Val)) (v : Val)
    (ts : List String)
    (hop : c.op = ("call_function"))
    (ha : loadArgList st.env c.args = Except.ok args)
    (hk : loadKwargs st.env c.kwargs = Except.ok kwargs)
    (hf : c.fn args kwargs = Except.ok v)
    (ht : resultTraces verb rank c.results_meta 0 (rlistOf v) = Except.ok ts) :
    obsE (interpStep rank model inputs verb st c) =
      Except.ok (dictSet st.env c.name v, some v) := by
  have h1 : ¬(("call_function") = ("placeholder")) := by decide
  have h2 : ¬(("call_function") = ("get_attr")) := by decide
  unfold interpStep
  rw [hop, if_neg h1, if_neg h2, if_pos rfl]
  simp only [ha, hk, hf, ht]
  rfl

/-- C4 witness: the amended theorem evaluated at the two-output operation:
the pair is bound whole under the node name c. -/
theorem c4_witness :
    obsE (interpStep 0 m0 inp0 0 ⟨[(("x"), inp0)], some inp0, []⟩ cPairNode) =
      Except.ok (dictSet [(("x"), inp0)] (("c")) (Val.tup [Val.int 1, Val.int 2]),
        some (Val.tup [Val.int 1, Val.int 2])) :=
  c4_bind_whole_result 0 m0 inp0 0 ⟨[(("x"), inp0)], some inp0, []⟩ cPairNode
    [inp0] [] (Val.tup [Val.int 1, Val.int 2]) [] rfl rfl rfl rfl rfl

/-- C5 counterexample: a call node whose operation raises boom.  The run
fails with the raw operation error carrying only the message the operation
raised: the PyErr.opError payload holds no node name, because line 93 has
no try/except and no wrapping - the claim that an OperationError annotated
with the node name is raised fails on this input. -/
theorem c5_counterexample :
    node_interpreter_run 0 m0 inp0 0 [xNode, cBoomNode] =
      Except.error (PyErr.opError ("boom")) :=
  rfl

/-- C5 amended: when the operation of a call node raises, the exception
propagates as-is out of the interpreter (modulo the host-language
exception mechanism), unannotated: the error is exactly the raw operation
error, with no node identity attached. -/
theorem c5_raw_error_propagation (rank : Nat) (model : PModel) (inputs : Val) (verb : Nat)
    (pre : List Node) (c : Node) (post : List Node) (st : IState)
    (args : List Val) (kwargs : List (String × Val)) (e : String)
    (hpre : node_interpreter_run rank model inputs verb pre = Except.ok st)
    (hop : c.op = ("call_function"))
    (ha : loadArgList st.env c.args = Except.ok args)
    (hk : loadKwargs st.env c.kwargs = Except.ok kwargs)
    (hf : c.fn args kwargs = Except.error e) :
    node_interpreter_run rank model inputs verb (pre ++ c :: post) =
      Except.error (PyErr.opError e) := by
  have h1 : ¬(("call_function") = ("placeholder")) := by decide
  have h2 : ¬(("call_function") = ("get_attr")) := by decide
  have hstep : interpStep rank model inputs verb st c =
      Except.error (PyErr.opError e) := by
    unfold interpStep
    rw [hop, if_neg h1, if_neg h2, if_pos rfl]
    simp only [ha, hk, hf]
  unfold node_interpreter_run at hpre ⊢
  rw [runFrom_append, hpre]
  simp only [runFrom, hstep]

/-- C5 witness: the amended theorem evaluated at a raising operation with
message bang. -/
theorem c5_witness :
    node_interpreter_run 0 m0 inp0 0 ([xNode] ++ dBangNode :: []) =
      Except.error (PyErr.opError ("bang")) :=
  c5_raw_error_propagation 0 m0 inp0 0 [xNode] dBangNode []
    ⟨[(("x"), inp0)], some inp0, []⟩ [] [] ("bang") rfl rfl rfl rfl rfl

/-- C8: the interpreter is observationally deterministic and its trace
emission never affects the bound values: at any two verbosities, two runs
on the same graph, model and input produce outcomes with identical
environment and result components (the log lines are the only
difference).  Node operations are Lean functions here, so the
determinism hypothesis on the underlying operations holds by
construction; with equal verbosities the two runs are the same term, and
this theorem adds that the verbosity choice cannot leak into the
Environment. -/
theorem c8_trace_verbosity_independent (rank : Nat) (model : PModel) (inputs : Val)
    (v1 v2 : Nat) (nodes : List Node) :
    obsE (node_interpreter_run rank model inputs v1 nodes) =
      obsE (node_interpreter_run rank model inputs v2 nodes) :=
  runFrom_obs rank model inputs v1 v2 ⟨[], none, []⟩ ⟨[], none, []⟩ nodes rfl rfl

/-- The three op kinds the if/elif chain of the interpreter recognizes; every
other kind falls through to the bare env[node.name] = result at
line 131. -/
def recognizedOp (s : String) : Bool :=
  s == ("placeholder") || s == ("get_attr") || s == ("call_function")

/-- C9: unknown node kinds are never rejected explicitly.  First, a graph
whose first node has an unrecognized op kind fails with the
unbound-local-variable error on result, since line 131 reads a local that
no branch assigned.  Second, an unrecognized node reached after a
successful prefix whose local result holds r does not fail: it silently
binds its own name to r - the value produced by the most recent recognized
node - and interpretation continues.  Third, every successful step leaves
result assigned (so after any successful nonempty prefix the second part
applies). -/
theorem c9_unknown_op_behavior :
    (∀ (rank : Nat) (model : PModel) (inputs : Val) (verb : Nat) (c : Node)
      (rest : List Node), recognizedOp c.op = false →
      node_interpreter_run rank model inputs verb (c :: rest) =
        Except.error (PyErr.unboundLocal ("result"))) ∧
    (∀ (rank : Nat) (model : PModel) (inputs : Val) (verb : Nat) (pre : List Node)
      (c : Node) (post : List Node) (st : IState) (r : Val),
      node_interpreter_run rank model inputs verb pre = Except.ok st →
      st.res = some r → recognizedOp c.op = false →
      node_interpreter_run rank model inputs verb (pre ++ c :: post) =
        runFrom rank model inputs verb ⟨dictSet st.env c.name r, some r, st.trace⟩ post) ∧
    (∀ (rank : Nat) (model : PModel) (inputs : Val) (verb : Nat) (st : IState)
      (n : Node) (rest : List Node) (st2 : IState),
      runFrom rank model inputs verb st (n :: rest) = Except.ok st2 →
      st2.res.isSome) := by
  refine ⟨?_, ?_, ?_⟩
  · intro rank model inputs verb c rest h
    simp only [recognizedOp, Bool.or_eq_false_iff, beq_eq_false_iff_ne, ne_eq] at h
    obtain ⟨⟨hn1, hn2⟩, hn3⟩ := h
    have hstep : interpStep rank model inputs verb ⟨[], none, []⟩ c =
        Except.error (PyErr.unboundLocal ("result")) := by
      unfold interpStep
      rw [if_neg hn1, if_neg hn2, if_neg hn3]
    simp only [node_interpreter_run, runFrom, hstep]
  · intro rank model inputs verb pre c post st r hpre hres h
    simp only [recognizedOp, Bool.or_eq_false_iff, beq_eq_false_iff_ne, ne_eq] at h
    obtain ⟨⟨hn1, hn2⟩, hn3⟩ := h
    have hstep : interpStep rank model inputs verb st c =
        Except.ok ⟨dictSet st.env c.name r, some r, st.trace⟩ := by
      unfold interpStep
      rw [if_neg hn1, if_neg hn2, if_neg hn3, hres]
    unfold node_interpreter_run at hpre ⊢
    rw [runFrom_append, hpre]
    simp only [runFrom, hstep]
  · intro rank model inputs verb st n rest st2 h
    exact runFrom_ok_res_isSome rank model inputs verb st n rest st2 h

/-- C9 witness: a graph starting with an output node fails with the
unbound-local error; the same output node after a placeholder silently
receives the value of the placeholder. -/
theorem c9_witness :
    node_interpreter_run 0 m0 inp0 0 [outNode] =
      Except.error (PyErr.unboundLocal ("result")) ∧
    node_interpreter_run 0 m0 inp0 0 ([xNode] ++ outNode :: []) =
      runFrom 0 m0 inp0 0 ⟨dictSet [(("x"), inp0)] (("out")) inp0, some inp0, []⟩ [] :=
  ⟨c9_unknown_op_behavior.1 0 m0 inp0 0 outNode [] rfl,
   c9_unknown_op_behavior.2.1 0 m0 inp0 0 [xNode] outNode []
     ⟨[(("x"), inp0)], some inp0, []⟩ inp0 rfl rfl rfl⟩

end Adaserve
